import Mathlib

/-!
# Paragraph block (`src/index.js`)

A shallow embedding of the `Paragraph` class of `src/index.js` and the
properties of its plugin contract.

Modelling conventions.

* JavaScript strings are `String`s (sequences of code points; every code
  point that `trim` removes lies in the basic plane, so `trim` acts on them
  as it does on UTF-16 code units); a property that may be absent is a
  `Js.Value`.
* Data objects (`ParagraphData`) live in a `Heap` and are passed by
  reference (`Ref`): the `data` getter returns the very object held in
  `this._data` after mutating it, and the setter stores the caller's object.
* The editable surface is an `Element` record holding its attributes, its
  class tokens and its serialized content `innerHTML`. An assignment to
  `innerHTML` goes through the markup engine of the document (`Dom.Engine`):
  the string is parsed and what a later read returns is the serialization of
  the parsed content.
* A thrown `TypeError` is the `error` case of `Except`, and so is a
  `DOMException` raised by the surface.
-/

/-! ## JavaScript values -/

namespace Js

/-- Values a `text` or `placeholder` property can hold: absent, a string, or
the number NaN (the value of `undefined + undefined`), so that the operators
used by the class are total on this universe. -/
inductive Value where
  | undefined
  | string (s : String)
  | nan
  deriving DecidableEq, Repr

/-- Exceptions raised by the language runtime. -/
inductive Error where
  | TypeError
  deriving DecidableEq, Repr

/-- ToBoolean: `undefined`, the empty string and NaN are falsy. -/
def Value.toBoolean : Value → Bool
  | .undefined => false
  | .string s => s ≠ ""
  | .nan => false

/-- ToString. -/
def Value.toStr : Value → String
  | .undefined => "undefined"
  | .string s => s
  | .nan => "NaN"

/-- The operator `a || b`: `a` when it is truthy, otherwise `b`. -/
def Value.or (a b : Value) : Value :=
  if a.toBoolean then a else b

/-- The operator `a + b`: string concatenation of ToString of both operands
as soon as one of them is a string, numeric addition (here always NaN)
otherwise. -/
def Value.add : Value → Value → Value
  | .string a, b => .string (a ++ b.toStr)
  | a, .string b => .string (a.toStr ++ b)
  | _, _ => .nan

/-- Code points removed by `String.prototype.trim`: WhiteSpace (TAB, VT, FF,
SP, NBSP, ZWNBSP and the Unicode space separators) and LineTerminator (LF, CR,
LS, PS). -/
def isWhiteSpace (c : Char) : Bool :=
  c.toNat ∈ [0x09, 0x0A, 0x0B, 0x0C, 0x0D, 0x20, 0xA0, 0x1680,
    0x2000, 0x2001, 0x2002, 0x2003, 0x2004, 0x2005, 0x2006, 0x2007, 0x2008, 0x2009, 0x200A,
    0x2028, 0x2029, 0x202F, 0x205F, 0x3000, 0xFEFF]

/-- The method `String.prototype.trim`: white space is removed from both ends. -/
def trim (s : String) : String :=
  ⟨((s.data.dropWhile isWhiteSpace).reverse.dropWhile isWhiteSpace).reverse⟩

/-- The call `v.trim()`: a `TypeError` unless `v` is a string. -/
def Value.trim : Value → Except Error String
  | .string s => .ok (Js.trim s)
  | .undefined => .error .TypeError
  | .nan => .error .TypeError

end Js

/-! ## Data objects and the heap -/

/-- The object `{ text }`; `text` is `undefined` when the field is absent. -/
structure ParagraphData where
  text : Js.Value := .undefined
  deriving DecidableEq, Repr

/-- A reference to a data object. -/
abbrev Ref := Nat

/-- The data objects allocated so far; a reference is an index. -/
structure Heap where
  objs : List ParagraphData
  deriving DecidableEq, Repr

/-- Evaluation of an object literal: a fresh reference and the extended heap. -/
def Heap.alloc (h : Heap) (o : ParagraphData) : Ref × Heap :=
  (h.objs.length, ⟨h.objs ++ [o]⟩)

/-- The object a reference designates. -/
def Heap.read (h : Heap) (r : Ref) : ParagraphData :=
  h.objs.getD r {}

/-- The assignment `r.text = v`. -/
def Heap.setText (h : Heap) (r : Ref) (v : Js.Value) : Heap :=
  ⟨h.objs.set r { h.read r with text := v }⟩

/-- The reference designates an allocated object. -/
def Heap.live (h : Heap) (r : Ref) : Prop :=
  r < h.objs.length

instance (h : Heap) (r : Ref) : Decidable (h.live r) :=
  inferInstanceAs (Decidable (r < h.objs.length))

/-! ## The editable surface -/

namespace Dom

/-- Exceptions raised by the surface (`DOMException` names). -/
inductive Exception where
  | SyntaxError
  | InvalidCharacterError
  deriving DecidableEq, Repr

/-- An element: tag name, class tokens, the `contentEditable` property,
the attributes set through `setAttribute`, and the serialized content, the
string a read of `innerHTML` returns. -/
structure Element where
  tagName : String
  classList : List String := []
  contentEditable : String := "inherit"
  attributes : List (String × String) := []
  innerHTML : String := ""
  deriving DecidableEq, Repr

/-- The call `document.createElement(tag)`. -/
def createElement (tag : String) : Element :=
  { tagName := tag }

/-- ASCII white space of the DOM standard: TAB, LF, FF, CR, SPACE. -/
def isAsciiWhitespace (c : Char) : Bool :=
  c.toNat ∈ [0x09, 0x0A, 0x0C, 0x0D, 0x20]

/-- The validation `classList.add` runs over its tokens, in order: an empty
token raises `SyntaxError`, a token with ASCII white space raises
`InvalidCharacterError`. -/
def checkTokens : List String → Except Exception Unit
  | [] => .ok ()
  | t :: ts =>
    if t = "" then .error .SyntaxError
    else if t.data.any isAsciiWhitespace then .error .InvalidCharacterError
    else checkTokens ts

/-- A token `classList.add` accepts: not empty and free of ASCII white space. -/
def validToken (t : String) : Bool :=
  t ≠ "" && !(t.data.any isAsciiWhitespace)

/-- The call `classList.add(t1, t2)`: the tokens are validated, then each is
appended unless present. -/
def Element.classListAdd (e : Element) (tokens : List String) : Except Exception Element :=
  match checkTokens tokens with
  | .error x => .error x
  | .ok _ =>
    .ok { e with classList := tokens.foldl (fun l t => if t ∈ l then l else l ++ [t]) e.classList }

/-- The call `setAttribute(name, value)`; the value is converted to a string. -/
def Element.setAttribute (e : Element) (name : String) (value : Js.Value) : Element :=
  { e with attributes := (name, value.toStr) :: e.attributes.filter (fun a => a.1 ≠ name) }

/-- The call `getAttribute(name)`; `none` when the attribute is not present. -/
def Element.getAttribute (e : Element) (name : String) : Option String :=
  (e.attributes.find? (fun a => a.1 = name)).map (fun a => a.2)

/-- The serializer's escape of one character of a text node: `&`, U+00A0, `<`
and `>` become `&amp;`, `&nbsp;`, `&lt;` and `&gt;`. -/
def escapeChar (c : Char) : List Char :=
  if c.toNat = 0x26 then "&amp;".data
  else if c.toNat = 0xA0 then "&nbsp;".data
  else if c.toNat = 0x3C then "&lt;".data
  else if c.toNat = 0x3E then "&gt;".data
  else [c]

/-- The serializer's escape of the data of a text node. -/
def escapeText (s : String) : String :=
  ⟨s.data.flatMap escapeChar⟩

/-- Markup that the parser reads as character data only: no `<` (no tag), no
`&` (no character reference), no U+0000 (dropped by the parser) and no U+000D
(turned into a line feed before parsing). -/
def isCharacterData (s : String) : Bool :=
  s.data.all (fun c => decide (c.toNat ∉ [0x00, 0x0D, 0x26, 0x3C]))

/-- Character data that the serializer leaves as it is: also free of `>` and
of U+00A0. -/
def isStableText (s : String) : Bool :=
  s.data.all (fun c => decide (c.toNat ∉ [0x00, 0x0D, 0x26, 0x3C, 0x3E, 0xA0]))

/-- The markup engine of the document, which the class uses through
`innerHTML` and does not contain. `reserialize s` is the string a read of
`innerHTML` returns after the assignment `innerHTML = s` on a `div`: `s` is
parsed as a fragment and the parsed content serialized. Of the engine only the
rule for character data is kept: markup without tags and references becomes one
text node, which is serialized with the escape of the standard. -/
structure Engine where
  reserialize : String → String
  characterData : ∀ s, isCharacterData s = true → reserialize s = escapeText s

/-- The engine of a surface that reads every assigned string as character
data. It follows the rule of `Engine` and serves as a concrete engine where a
statement is evaluated at text without markup. -/
def textEngine : Engine :=
  { reserialize := escapeText, characterData := fun _ _ => rfl }

/-- The assignment `innerHTML = s`. -/
def Element.setInnerHTML (B : Engine) (e : Element) (s : String) : Element :=
  { e with innerHTML := B.reserialize s }

end Dom

/-! ## The class `Paragraph` -/

/-- The host's style constants, `api.styles`. -/
structure Styles where
  block : String
  deriving DecidableEq, Repr

/-- The host's block queries, `api.blocks`; `getBlocksCount` is the number
the call `getBlocksCount()` returns. -/
structure Blocks where
  getBlocksCount : Nat
  deriving DecidableEq, Repr

/-- The host API surface. -/
structure Api where
  styles : Styles
  blocks : Blocks
  deriving DecidableEq, Repr

/-- The user configuration of the tool. -/
structure Config where
  placeholder : Js.Value := .undefined
  deriving DecidableEq, Repr

/-- The field `_CSS`. -/
structure CSS where
  block : String
  wrapper : String
  deriving DecidableEq, Repr

/-- The fields of an instance. -/
structure Paragraph where
  api : Api
  config : Config
  _CSS : CSS
  _data : Ref
  _element : Dom.Element
  deriving DecidableEq, Repr

/-- The store a method runs in: the heap of data objects and the instance. -/
structure World where
  heap : Heap
  self : Paragraph
  deriving DecidableEq, Repr

/-- The instance's snapshot reference designates an allocated object. -/
def World.wf (w : World) : Prop :=
  w.heap.live w.self._data

instance (w : World) : Decidable w.wf :=
  inferInstanceAs (Decidable (w.heap.live w.self._data))

namespace Paragraph

/-- The static getter `displayInToolbox`. -/
def displayInToolbox : Bool := false

/-- The method `drawView()`; it reads `this._CSS`, `this.api` and
`this.config`, the fields assigned before the constructor calls it. -/
def drawView (_CSS : CSS) (api : Api) (config : Config) : Except Dom.Exception Dom.Element :=
  let div := Dom.createElement "DIV"
  match div.classListAdd [_CSS.wrapper, _CSS.block] with
  | .error x => .error x
  | .ok div =>
    let div := { div with contentEditable := "true" }
    let div :=
      if api.blocks.getBlocksCount = 0 then
        div.setAttribute "data-placeholder" config.placeholder
      else div
    .ok div

/-- The getter `data`: the snapshot's `text` is refreshed from the surface
and the snapshot object itself is returned. -/
def getData (w : World) : Ref × World :=
  let text := w.self._element.innerHTML
  let heap := w.heap.setText w.self._data (.string text)
  (w.self._data, { w with heap := heap })

/-- The setter `data`: `this._data = data || {}` and
`this._element.innerHTML = this._data.text || ''`. -/
def setData (B : Dom.Engine) (w : World) (data : Option Ref) : World :=
  let (d, heap) :=
    match data with
    | some r => (r, w.heap)
    | none => w.heap.alloc {}
  let html := ((heap.read d).text.or (.string "")).toStr
  { heap := heap,
    self := { w.self with _data := d, _element := w.self._element.setInnerHTML B html } }

/-- The constructor; `data` is `none` when the host passes no data object.
An exception of `drawView` leaves no instance. -/
def constructor (B : Dom.Engine) (heap : Heap) (data : Option Ref) (config : Config) (api : Api) :
    Except Dom.Exception World :=
  let _CSS : CSS := { block := api.styles.block, wrapper := "ce-paragraph" }
  let (d, heap) := heap.alloc {}
  match drawView _CSS api config with
  | .error x => .error x
  | .ok _element =>
    .ok (setData B { heap := heap,
                     self := { api := api, config := config, _CSS := _CSS, _data := d,
                               _element := _element } } data)

/-- The method `render()`. -/
def render (w : World) : Dom.Element :=
  w.self._element

/-- The method `merge(data)`:
`let newData = { text : this.data.text + data.text }; this.data = newData;` -/
def merge (B : Dom.Engine) (w : World) (data : Ref) : World :=
  let (own, w) := getData w
  let text := (w.heap.read own).text.add (w.heap.read data).text
  let (newData, heap) := w.heap.alloc { text := text }
  setData B { w with heap := heap } (some newData)

/-- The method `validate(savedData)`:
`if (savedData.text.trim() === '') return false; return true;` -/
def validate (savedData : ParagraphData) : Except Js.Error Bool :=
  match savedData.text.trim with
  | .error e => .error e
  | .ok t => if t = "" then .ok false else .ok true

/-- The method `save(toolsContent)`: a new object `{ text: toolsContent.innerHTML }`. -/
def save (w : World) (toolsContent : Dom.Element) : Ref × World :=
  let (r, heap) := w.heap.alloc { text := .string toolsContent.innerHTML }
  (r, { w with heap := heap })

/-- An attribute rule of the sanitizer table: `true`/`false` or a fixed value. -/
inductive AttrRule where
  | bool (b : Bool)
  | value (s : String)
  deriving DecidableEq, Repr

/-- A tag rule of the sanitizer table: a boolean, or an object of attribute rules. -/
inductive TagRule where
  | bool (b : Bool)
  | attrs (a : List (String × AttrRule))
  deriving DecidableEq, Repr

/-- The object returned by the getter `sanitize`. -/
structure SanitizerConfig where
  text : List (String × TagRule)
  deriving DecidableEq, Repr

/-- The getter `sanitize`. -/
def sanitize (_w : World) : SanitizerConfig :=
  { text :=
      [ ("a", .attrs [("href", .bool true), ("target", .value "_blank"), ("rel", .value "nofollow")]),
        ("b", .attrs []),
        ("i", .attrs []),
        ("br", .bool true),
        ("span", .attrs [("class", .value "inline-code")]),
        ("mark", .attrs [("class", .value "cdx-marker")]) ] }

/-- The descriptor returned by the static getter `onPaste`. -/
structure PasteConfig where
  tags : List String
  handler : Heap → Dom.Element → Ref × Heap

/-- The static getter `onPaste`. -/
def onPaste : PasteConfig :=
  { tags := ["P"],
    handler := fun heap content => heap.alloc { text := .string content.innerHTML } }

/-- A read of the block's data by the host: the getter runs and the object
it returns is inspected. -/
def read (w : World) : ParagraphData :=
  let (r, w) := getData w
  w.heap.read r

end Paragraph

/-- Evaluation of an object literal by the host before a call: the reference
of the new object and the store that holds it. -/
def World.newObject (w : World) (o : ParagraphData) : Ref × World :=
  let (r, heap) := w.heap.alloc o
  (r, { w with heap := heap })

/-! ## Concrete blocks -/

/-- A host API that reports one existing block. -/
def exampleApi : Api :=
  { styles := { block := "cdx-block" }, blocks := { getBlocksCount := 1 } }

/-- The block the constructor builds from the saved data `{text: t}` when that
object is the only one of the heap; `html` is the content of its surface. -/
def exampleBlock (t html : String) : World :=
  { heap := ⟨[{ text := .string t }, {}]⟩,
    self :=
      { api := exampleApi, config := {},
        _CSS := { block := "cdx-block", wrapper := "ce-paragraph" },
        _data := 0,
        _element :=
          { tagName := "DIV", classList := ["ce-paragraph", "cdx-block"],
            contentEditable := "true", innerHTML := html } } }

/-- The block constructed from the saved data `{text: 'a'}`. -/
def exampleWorld : World :=
  exampleBlock "a" "a"

/-- The block constructed from the saved data `{text: ' '}`. -/
def exampleSpaceWorld : World :=
  exampleBlock " " " "

/-! ## Facts about `trim` -/

namespace Js

/-- Every code point of the string is removed by `trim`. -/
def allWhiteSpace (s : String) : Prop :=
  ∀ c ∈ s.data, isWhiteSpace c = true

instance (s : String) : Decidable (allWhiteSpace s) :=
  inferInstanceAs (Decidable (∀ c ∈ s.data, isWhiteSpace c = true))

theorem dropWhile_both_eq_nil_iff (p : Char → Bool) (l : List Char) :
    ((l.dropWhile p).reverse.dropWhile p).reverse = [] ↔ ∀ c ∈ l, p c = true := by
  rw [List.reverse_eq_nil_iff, List.dropWhile_eq_nil_iff]
  constructor
  · intro h
    rw [← List.dropWhile_eq_nil_iff]
    by_contra hne
    have hhead := List.head_dropWhile_not p l hne
    have hmem : (l.dropWhile p).head hne ∈ (l.dropWhile p).reverse :=
      List.mem_reverse.mpr (List.head_mem hne)
    rw [h _ hmem] at hhead
    exact Bool.noConfusion hhead
  · intro h c hc
    have hnil : l.dropWhile p = [] := List.dropWhile_eq_nil_iff.mpr h
    simp [hnil] at hc

theorem trim_eq_empty_iff (s : String) : trim s = "" ↔ allWhiteSpace s := by
  unfold trim allWhiteSpace
  rw [← dropWhile_both_eq_nil_iff isWhiteSpace s.data]
  constructor
  · intro h
    have := congrArg String.data h
    simpa using this
  · intro h
    rw [h]

theorem allWhiteSpace_append (a b : String) :
    allWhiteSpace (a ++ b) ↔ allWhiteSpace a ∧ allWhiteSpace b := by
  unfold allWhiteSpace
  simp only [String.data_append, List.mem_append]
  constructor
  · intro h
    exact ⟨fun c hc => h c (Or.inl hc), fun c hc => h c (Or.inr hc)⟩
  · rintro ⟨ha, hb⟩ c (hc | hc)
    · exact ha c hc
    · exact hb c hc

end Js

/-! ## Facts about the heap -/

theorem Heap.read_alloc_new (h : Heap) (o : ParagraphData) :
    (h.alloc o).2.read (h.alloc o).1 = o := by
  simp [Heap.alloc, Heap.read, List.getD_eq_getElem?_getD]

theorem Heap.read_alloc_old (h : Heap) (o : ParagraphData) (r : Ref) (hr : h.live r) :
    (h.alloc o).2.read r = h.read r := by
  unfold Heap.live at hr
  simp [Heap.alloc, Heap.read, List.getD_eq_getElem?_getD, List.getElem?_append_left hr]

theorem Heap.live_alloc_new (h : Heap) (o : ParagraphData) :
    (h.alloc o).2.live (h.alloc o).1 := by
  simp [Heap.alloc, Heap.live]

theorem Heap.live_alloc_old (h : Heap) (o : ParagraphData) (r : Ref) (hr : h.live r) :
    (h.alloc o).2.live r := by
  have hr' : r < h.objs.length := hr
  show r < (h.objs ++ [o]).length
  rw [List.length_append, List.length_singleton]
  exact Nat.lt_succ_of_lt hr'

theorem Heap.read_setText_same (h : Heap) (r : Ref) (v : Js.Value) (hr : h.live r) :
    (h.setText r v).read r = { h.read r with text := v } := by
  unfold Heap.live at hr
  simp [Heap.setText, Heap.read, List.getD_eq_getElem?_getD, hr]

theorem Heap.read_setText_other (h : Heap) (r x : Ref) (v : Js.Value) (hx : x ≠ r) :
    (h.setText r v).read x = h.read x := by
  simp [Heap.setText, Heap.read, List.getD_eq_getElem?_getD, List.getElem?_set, Ne.symm hx]

theorem Heap.live_setText (h : Heap) (r x : Ref) (v : Js.Value) :
    (h.setText r v).live x ↔ h.live x := by
  simp [Heap.setText, Heap.live]

/-! ## Facts about the surface -/

namespace Dom

theorem flatMap_escapeChar_of_stable (l : List Char)
    (h : ∀ c ∈ l, c.toNat ∉ [0x00, 0x0D, 0x26, 0x3C, 0x3E, 0xA0]) :
    l.flatMap escapeChar = l := by
  induction l with
  | nil => rfl
  | cons c cs ih =>
    have hc := h c (List.mem_cons_self c cs)
    have hcs := ih (fun x hx => h x (List.mem_cons_of_mem c hx))
    simp only [List.mem_cons, List.mem_singleton, List.not_mem_nil, or_false, not_or] at hc
    have e : escapeChar c = [c] := by
      simp [escapeChar, hc.2.2.1, hc.2.2.2.2, hc.2.2.2.1, hc.2.2.2.2]
    rw [List.flatMap_cons, e, hcs]
    rfl

theorem escapeText_of_stable (s : String) (h : isStableText s = true) : escapeText s = s := by
  unfold isStableText at h
  rw [List.all_eq_true] at h
  unfold escapeText
  rw [flatMap_escapeChar_of_stable s.data (fun c hc => of_decide_eq_true (h c hc))]

theorem isCharacterData_of_stable (s : String) (h : isStableText s = true) :
    isCharacterData s = true := by
  unfold isStableText at h
  unfold isCharacterData
  rw [List.all_eq_true] at *
  intro c hc
  have := of_decide_eq_true (h c hc)
  simp only [List.mem_cons, List.mem_singleton, List.not_mem_nil, or_false, not_or] at this
  simp [this.1, this.2.1, this.2.2.1, this.2.2.2.1]

theorem isStableText_append (a b : String) :
    isStableText (a ++ b) = (isStableText a && isStableText b) := by
  simp [isStableText, List.all_append]

/-- Stable text comes back from the surface as it was assigned. -/
theorem Engine.reserialize_stable (B : Engine) (s : String) (h : isStableText s = true) :
    B.reserialize s = s := by
  rw [B.characterData s (isCharacterData_of_stable s h), escapeText_of_stable s h]

end Dom

/-! ## Facts about the accessors -/

theorem Js.Value.or_string_toStr (s : String) :
    ((Js.Value.string s).or (.string "")).toStr = s := by
  by_cases h : s = ""
  · subst h
    rfl
  · simp [Js.Value.or, Js.Value.toBoolean, Js.Value.toStr, h]

namespace Paragraph

theorem read_of_wf (w : World) (hw : w.wf) :
    read w = { text := .string w.self._element.innerHTML } := by
  have h := Heap.read_setText_same w.heap w.self._data (.string w.self._element.innerHTML) hw
  simpa [read, getData] using h

theorem wf_getData (w : World) (hw : w.wf) : (getData w).2.wf :=
  (Heap.live_setText w.heap w.self._data w.self._data _).mpr hw

theorem setData_some_self (B : Dom.Engine) (w : World) (r : Ref) :
    (setData B w (some r)).self._data = r ∧ (setData B w (some r)).heap = w.heap ∧
      (setData B w (some r)).self._element.innerHTML
        = B.reserialize ((w.heap.read r).text.or (.string "")).toStr := by
  simp [setData, Dom.Element.setInnerHTML]

theorem wf_setData_some (B : Dom.Engine) (w : World) (r : Ref) (hr : w.heap.live r) :
    (setData B w (some r)).wf := by
  simpa [World.wf, setData] using hr

theorem wf_setData_none (B : Dom.Engine) (w : World) : (setData B w none).wf := by
  simpa [World.wf, setData] using Heap.live_alloc_new w.heap {}

theorem wf_merge (B : Dom.Engine) (w : World) (data : Ref) : (merge B w data).wf := by
  unfold merge
  exact wf_setData_some B _ _ (Heap.live_alloc_new _ _)

theorem wf_save (w : World) (e : Dom.Element) (hw : w.wf) : (save w e).2.wf :=
  Heap.live_alloc_old w.heap _ _ hw

theorem wf_constructor (B : Dom.Engine) (heap : Heap) (data : Option Ref) (config : Config)
    (api : Api) (w : World) (hd : ∀ r, data = some r → heap.live r)
    (h : constructor B heap data config api = .ok w) : w.wf := by
  unfold constructor at h
  simp only [] at h
  split at h
  · exact Except.noConfusion h
  · injection h with h
    subst h
    cases data with
    | none => exact wf_setData_none B _
    | some r => exact wf_setData_some B _ _ (Heap.live_alloc_old heap {} r (hd r rfl))

theorem wf_newObject (w : World) (o : ParagraphData) (hw : w.wf) : (w.newObject o).2.wf :=
  Heap.live_alloc_old w.heap o _ hw

/-- The surface after `merge(data)` when `data` is not the block's own
snapshot object: the old content followed by ToString of `data.text`, as the
engine returns it. -/
theorem merge_innerHTML (B : Dom.Engine) (w : World) (data : Ref) (hw : w.wf)
    (hd : data ≠ w.self._data) :
    (merge B w data).self._element.innerHTML
      = B.reserialize (w.self._element.innerHTML ++ (w.heap.read data).text.toStr) := by
  have h1 := Heap.read_setText_same w.heap w.self._data (.string w.self._element.innerHTML) hw
  have h2 := Heap.read_setText_other w.heap w.self._data data
    (.string w.self._element.innerHTML) hd
  unfold merge
  simp only [getData]
  rw [(setData_some_self B _ _).2.2]
  simp only [Heap.read_alloc_new, h1, h2]
  simp only [Js.Value.add]
  rw [Js.Value.or_string_toStr]

/-- The surface after `merge(data)` when `data` is the block's own snapshot
object: the getter has overwritten `data.text`, so the content is doubled. -/
theorem merge_own_snapshot (B : Dom.Engine) (w : World) (hw : w.wf) :
    (merge B w w.self._data).self._element.innerHTML
      = B.reserialize (w.self._element.innerHTML ++ w.self._element.innerHTML) := by
  have h1 := Heap.read_setText_same w.heap w.self._data (.string w.self._element.innerHTML) hw
  unfold merge
  simp only [getData]
  rw [(setData_some_self B _ _).2.2]
  simp only [Heap.read_alloc_new, h1]
  simp only [Js.Value.add]
  show B.reserialize ((Js.Value.string (w.self._element.innerHTML ++
    (Js.Value.string w.self._element.innerHTML).toStr)).or (.string "")).toStr = _
  rw [Js.Value.or_string_toStr]
  rfl

/-- A read after `merge` of an object literal `o`: the old content followed
by ToString of `o.text`, as the engine returns it. -/
theorem read_merge_newObject (B : Dom.Engine) (w : World) (o : ParagraphData) (hw : w.wf) :
    read (merge B (w.newObject o).2 (w.newObject o).1)
      = { text := .string (B.reserialize (w.self._element.innerHTML ++ o.text.toStr)) } := by
  have hw1 : (w.newObject o).2.wf := wf_newObject w _ hw
  have hne : (w.newObject o).1 ≠ (w.newObject o).2.self._data := by
    have : w.self._data < w.heap.objs.length := hw
    exact Nat.ne_of_gt this
  rw [read_of_wf _ (wf_merge B _ _), merge_innerHTML B _ _ hw1 hne]
  have hrd : ((w.newObject o).2.heap.read (w.newObject o).1) = o := Heap.read_alloc_new w.heap _
  rw [hrd]
  rfl

/-- A read after a write of an object literal `o` through the setter. -/
theorem read_setData_newObject (B : Dom.Engine) (w : World) (o : ParagraphData) :
    read (setData B (w.newObject o).2 (some (w.newObject o).1))
      = { text := .string (B.reserialize (o.text.or (.string "")).toStr) } := by
  have hlive : (w.newObject o).2.heap.live (w.newObject o).1 := Heap.live_alloc_new w.heap _
  have hrd : ((w.newObject o).2.heap.read (w.newObject o).1) = o := Heap.read_alloc_new w.heap _
  rw [read_of_wf _ (wf_setData_some B _ _ hlive), (setData_some_self B _ _).2.2, hrd]

theorem validate_string (s : String) :
    validate { text := .string s } = .ok (decide (¬ Js.allWhiteSpace s)) := by
  by_cases h : Js.allWhiteSpace s
  · simp [validate, Js.Value.trim, (Js.trim_eq_empty_iff s).mpr h, h]
  · have hne : Js.trim s ≠ "" := fun e => h ((Js.trim_eq_empty_iff s).mp e)
    simp [validate, Js.Value.trim, hne, h]

theorem drawView_ok_iff (_CSS : CSS) (api : Api) (config : Config) :
    (∃ e, drawView _CSS api config = .ok e) ↔
      Dom.checkTokens [_CSS.wrapper, _CSS.block] = .ok () := by
  unfold drawView Dom.Element.classListAdd
  cases h : Dom.checkTokens [_CSS.wrapper, _CSS.block] with
  | error x => simp
  | ok u => simp

/-- The block of `exampleBlock` is what the constructor builds, in every
engine, when the saved text is stable. -/
theorem constructor_exampleBlock (B : Dom.Engine) (t : String) (ht : Dom.isStableText t = true) :
    constructor B ⟨[{ text := .string t }]⟩ (some 0) {} exampleApi = .ok (exampleBlock t t) := by
  have h : B.reserialize ((Js.Value.string t).or (.string "")).toStr = t := by
    rw [Js.Value.or_string_toStr, B.reserialize_stable t ht]
  have hread : (⟨[{ text := .string t }, {}]⟩ : Heap).read 0 = { text := .string t } := rfl
  simp only [constructor, Heap.alloc, List.length_singleton, List.singleton_append]
  have hd : drawView { block := exampleApi.styles.block, wrapper := "ce-paragraph" } exampleApi {}
      = .ok { tagName := "DIV", classList := ["ce-paragraph", "cdx-block"],
              contentEditable := "true" } := by
    rfl
  rw [hd]
  simp only [setData, Dom.Element.setInnerHTML, hread, h]
  rfl

end Paragraph

/-! ## The contract of the block -/

namespace Paragraph

/-- C1: `validate({text: s})` is false when every character of `s` is white
space (the empty string included) and true when `s` has a character that is
not white space. -/
theorem validate_text (s : String) :
    ((∀ c ∈ s.data, Js.isWhiteSpace c = true) → validate { text := .string s } = .ok false) ∧
    ((∃ c ∈ s.data, Js.isWhiteSpace c = false) → validate { text := .string s } = .ok true) := by
  have key := Js.trim_eq_empty_iff s
  unfold Js.allWhiteSpace at key
  constructor
  · intro h
    simp [validate, Js.Value.trim, key.mpr h]
  · rintro ⟨c, hc, hfalse⟩
    have hne : Js.trim s ≠ "" := by
      intro h
      have := key.mp h c hc
      rw [hfalse] at this
      exact Bool.noConfusion this
    simp [validate, Js.Value.trim, hne]

/-- C2 as stated fails: on the block whose text is `a`, `merge` of the
literal with text `>` makes a subsequent read return `a&gt;` in every engine,
not the concatenation `a>`. -/
theorem merge_then_read_counterexample :
    read exampleWorld = { text := .string "a" } ∧
      (∀ B : Dom.Engine,
        read (merge B (exampleWorld.newObject { text := .string ">" }).2
          (exampleWorld.newObject { text := .string ">" }).1) = { text := .string "a&gt;" }) ∧
      ({ text := .string "a&gt;" } : ParagraphData) ≠ { text := .string ("a" ++ ">") } := by
  refine ⟨by decide, ?_, by decide⟩
  intro B
  rw [read_merge_newObject B exampleWorld _ (by decide)]
  have e : B.reserialize (exampleWorld.self._element.innerHTML
      ++ (ParagraphData.mk (.string ">")).text.toStr) = "a&gt;" :=
    (B.characterData _ (by decide)).trans (by decide)
  rw [e]

/-- C2, amended: on a block whose current text is `a`, `merge({text: b})`
assigns the plain concatenation `a ++ b` to the surface, and a subsequent read
returns what the engine makes of it; that is `a ++ b` itself when `a ++ b` is
stable text (none of `<`, `>`, `&`, U+00A0, U+000D, U+0000). -/
theorem merge_then_read (B : Dom.Engine) (w : World) (b : String) (hw : w.wf) :
    read (merge B (w.newObject { text := .string b }).2 (w.newObject { text := .string b }).1)
        = { text := .string (B.reserialize (w.self._element.innerHTML ++ b)) } ∧
      (Dom.isStableText (w.self._element.innerHTML ++ b) = true →
        read (merge B (w.newObject { text := .string b }).2 (w.newObject { text := .string b }).1)
          = { text := .string (w.self._element.innerHTML ++ b) }) := by
  have h := read_merge_newObject B w { text := .string b } hw
  refine ⟨h, fun hs => ?_⟩
  rw [h]
  show ParagraphData.mk (.string (B.reserialize (w.self._element.innerHTML ++ b))) = _
  rw [B.reserialize_stable _ hs]

/-- C3 as stated fails: writing `{text: '>'}` and reading returns the text
`&gt;` in every engine. -/
theorem write_then_read_counterexample :
    (∀ B : Dom.Engine,
        read (setData B (exampleWorld.newObject { text := .string ">" }).2
          (some (exampleWorld.newObject { text := .string ">" }).1)) = { text := .string "&gt;" }) ∧
      ({ text := .string "&gt;" } : ParagraphData) ≠ { text := .string ">" } := by
  refine ⟨?_, by decide⟩
  intro B
  rw [read_setData_newObject B exampleWorld _]
  have e : B.reserialize ((ParagraphData.mk (.string ">")).text.or (.string "")).toStr = "&gt;" :=
    (B.characterData _ (by decide)).trans (by decide)
  rw [e]

/-- C3, amended: writing `{text: s}` through the setter and reading through
the getter returns the written object with, as text, what the engine makes of
`s` (read from the surface), whatever the prior state; that is `s` itself when
`s` is stable text (none of `<`, `>`, `&`, U+00A0, U+000D, U+0000). -/
theorem write_then_read (B : Dom.Engine) (w : World) (s : String) :
    read (setData B (w.newObject { text := .string s }).2
          (some (w.newObject { text := .string s }).1))
        = { text := .string (B.reserialize s) } ∧
      (Dom.isStableText s = true →
        read (setData B (w.newObject { text := .string s }).2
            (some (w.newObject { text := .string s }).1)) = { text := .string s }) ∧
      (getData (setData B (w.newObject { text := .string s }).2
        (some (w.newObject { text := .string s }).1))).1 = (w.newObject { text := .string s }).1 := by
  have h : read (setData B (w.newObject { text := .string s }).2
      (some (w.newObject { text := .string s }).1)) = { text := .string (B.reserialize s) } := by
    rw [read_setData_newObject B w _]
    show ParagraphData.mk (.string (B.reserialize ((Js.Value.string s).or (.string "")).toStr)) = _
    rw [Js.Value.or_string_toStr]
  refine ⟨h, fun hs => ?_, ?_⟩
  · rw [h, B.reserialize_stable s hs]
  · simp [getData, setData]

/-- C4: `save(e)` returns a new object `{text: e.innerHTML}`, whatever the
state of the block, and changes neither the instance nor any object that
existed before the call (the cached snapshot among them). -/
theorem save_result_and_frame (w : World) (e : Dom.Element) :
    (save w e).2.heap.read (save w e).1 = { text := .string e.innerHTML } ∧
      (save w e).2.self = w.self ∧
      (save w e).2.heap.objs = w.heap.objs ++ [{ text := .string e.innerHTML }] ∧
      (∀ r, w.heap.live r → (save w e).2.heap.read r = w.heap.read r) := by
  refine ⟨Heap.read_alloc_new w.heap _, rfl, rfl, ?_⟩
  intro r hr
  exact Heap.read_alloc_old w.heap _ r hr

/-- C5: with a configured placeholder string `p`, the construction succeeds
exactly when the host's block class is a valid class token, and the rendered
element of every constructed block has the attribute `data-placeholder` with
value `p` exactly when the host reports zero blocks, and has no such attribute
when it reports one or more. -/
theorem placeholder_attribute (B : Dom.Engine) (heap : Heap) (data : Option Ref) (api : Api)
    (p : String) :
    ((∃ w, constructor B heap data { placeholder := .string p } api = .ok w) ↔
        Dom.validToken api.styles.block = true) ∧
      (∀ w, constructor B heap data { placeholder := .string p } api = .ok w →
        ((render w).getAttribute "data-placeholder" = some p ↔ api.blocks.getBlocksCount = 0) ∧
        (1 ≤ api.blocks.getBlocksCount → (render w).getAttribute "data-placeholder" = none)) := by
  have hwrap : ("ce-paragraph" = "") = False := by decide
  have hwrap2 : ("ce-paragraph".data.any Dom.isAsciiWhitespace) = false := by decide
  by_cases h1 : api.styles.block = ""
  · simp [constructor, drawView, Dom.Element.classListAdd, Dom.checkTokens, Dom.validToken,
      Heap.alloc, hwrap2, h1]
  · by_cases h2 : api.styles.block.data.any Dom.isAsciiWhitespace = true
    · simp [constructor, drawView, Dom.Element.classListAdd, Dom.checkTokens, Dom.validToken,
        Heap.alloc, hwrap2, h1, h2]
    · by_cases h : api.blocks.getBlocksCount = 0
      · simp [render, constructor, setData, drawView, Dom.Element.getAttribute,
          Dom.Element.setAttribute, Dom.Element.classListAdd, Dom.createElement,
          Dom.Element.setInnerHTML, Dom.checkTokens, Dom.validToken, Heap.alloc,
          Js.Value.toStr, hwrap2, h1, h2, h]
      · have hpos : 1 ≤ api.blocks.getBlocksCount := Nat.one_le_iff_ne_zero.mpr h
        simp [render, constructor, setData, drawView, Dom.Element.getAttribute,
          Dom.Element.classListAdd, Dom.createElement, Dom.Element.setInnerHTML,
          Dom.checkTokens, Dom.validToken, Heap.alloc, hwrap2, h1, h2, h]

/-- C6 (the code departs from it): the `tags` list of the `onPaste`
descriptor is exactly `['P']`; it does not contain `'DIV'`. -/
theorem onPaste_tags : onPaste.tags = ["P"] ∧ "P" ∈ onPaste.tags ∧ "DIV" ∉ onPaste.tags := by
  decide

/-- C7: in every state the getter `sanitize` returns the same table for the
field `text`: the tags are exactly a, b, i, br, span, mark; `a` lists `href`
(kept) with `target` fixed to `_blank` and `rel` fixed to `nofollow`; `b` and
`i` have the empty attribute object and `br` the rule `true`, none of the
three naming an attribute; `span` lists only class `inline-code` and `mark`
only class `cdx-marker`. -/
theorem sanitize_table (w : World) :
    (sanitize w).text.map Prod.fst = ["a", "b", "i", "br", "span", "mark"] ∧
    (sanitize w).text.lookup "a"
      = some (.attrs [("href", .bool true), ("target", .value "_blank"), ("rel", .value "nofollow")]) ∧
    (sanitize w).text.lookup "b" = some (.attrs []) ∧
    (sanitize w).text.lookup "i" = some (.attrs []) ∧
    (sanitize w).text.lookup "br" = some (.bool true) ∧
    (sanitize w).text.lookup "span" = some (.attrs [("class", .value "inline-code")]) ∧
    (sanitize w).text.lookup "mark" = some (.attrs [("class", .value "cdx-marker")]) := by
  refine ⟨rfl, ?_, ?_, ?_, ?_, ?_, ?_⟩ <;> rfl

/-- C1, at `' \t'` and at `' a '`. -/
theorem validate_text_witness :
    validate { text := .string " \t" } = .ok false ∧ validate { text := .string " a " } = .ok true :=
  ⟨(validate_text " \t").1 (by decide), (validate_text " a ").2 (by decide)⟩

/-- C2 amended, at the block built from `{text: 'a'}`, `b = 'b'` and the
text engine. -/
theorem merge_then_read_witness :
    exampleWorld.wf ∧
      read (merge Dom.textEngine (exampleWorld.newObject { text := .string "b" }).2
        (exampleWorld.newObject { text := .string "b" }).1) = { text := .string "ab" } :=
  ⟨by decide, (merge_then_read Dom.textEngine exampleWorld "b" (by decide)).2 (by decide)⟩

/-- C3 amended, at the block built from `{text: 'a'}`, `s = 'hi'` and the
text engine. -/
theorem write_then_read_witness :
    read (setData Dom.textEngine (exampleWorld.newObject { text := .string "hi" }).2
      (some (exampleWorld.newObject { text := .string "hi" }).1)) = { text := .string "hi" } :=
  (write_then_read Dom.textEngine exampleWorld "hi").2.1 (by decide)

/-- C5, at a host that reports no block, with block class `cdx-block` and
placeholder `Hi`: the construction succeeds and the attribute is set. -/
theorem placeholder_attribute_witness :
    ∃ w, constructor Dom.textEngine ⟨[]⟩ none { placeholder := .string "Hi" }
          { styles := { block := "cdx-block" }, blocks := { getBlocksCount := 0 } } = .ok w ∧
      (render w).getAttribute "data-placeholder" = some "Hi" := by
  have h := placeholder_attribute Dom.textEngine ⟨[]⟩ none
    { styles := { block := "cdx-block" }, blocks := { getBlocksCount := 0 } } "Hi"
  obtain ⟨w, hw⟩ := h.1.mpr (by decide)
  exact ⟨w, hw, ((h.2 w hw).1).mpr rfl⟩

/-- C8 as stated fails: on the block whose text is `'a'`, `merge({})` makes a
subsequent read return `{text: 'aundefined'}` in every engine, not
`{text: 'a'}`. -/
theorem merge_absent_text_counterexample :
    read exampleWorld = { text := .string "a" } ∧
      (∀ B : Dom.Engine,
        read (merge B (exampleWorld.newObject {}).2 (exampleWorld.newObject {}).1)
          = { text := .string "aundefined" }) ∧
      ({ text := .string "aundefined" } : ParagraphData) ≠ { text := .string "a" } := by
  refine ⟨by decide, ?_, by decide⟩
  intro B
  rw [read_merge_newObject B exampleWorld _ (by decide)]
  have e : B.reserialize (exampleWorld.self._element.innerHTML
      ++ (ParagraphData.mk .undefined).text.toStr) = "aundefined" :=
    B.reserialize_stable _ (by decide)
  rw [e]

/-- C8, amended: `merge` does not default an absent `text`; only the setter
does. On a block whose current text is `a`, `merge({text: ''})` assigns `a` to
the surface and `merge({})` assigns `a` followed by `'undefined'`, a subsequent
read returning what the engine makes of the assigned string; when `a` is stable
text the reads return `a` and `a` followed by `'undefined'`. Writing `{}`
through the setter makes the text `''`. -/
theorem merge_absent_text (B : Dom.Engine) (w : World) (hw : w.wf) :
    read (merge B (w.newObject { text := .string "" }).2 (w.newObject { text := .string "" }).1)
        = { text := .string (B.reserialize w.self._element.innerHTML) } ∧
      read (merge B (w.newObject {}).2 (w.newObject {}).1)
        = { text := .string (B.reserialize (w.self._element.innerHTML ++ "undefined")) } ∧
      read (setData B (w.newObject {}).2 (some (w.newObject {}).1)) = { text := .string "" } ∧
      (Dom.isStableText w.self._element.innerHTML = true →
        read (merge B (w.newObject { text := .string "" }).2
            (w.newObject { text := .string "" }).1)
          = { text := .string w.self._element.innerHTML } ∧
        read (merge B (w.newObject {}).2 (w.newObject {}).1)
          = { text := .string (w.self._element.innerHTML ++ "undefined") }) := by
  have h1 : read (merge B (w.newObject { text := .string "" }).2
      (w.newObject { text := .string "" }).1)
        = { text := .string (B.reserialize w.self._element.innerHTML) } := by
    rw [read_merge_newObject B w _ hw]
    simp [Js.Value.toStr]
  have h2 : read (merge B (w.newObject {}).2 (w.newObject {}).1)
      = { text := .string (B.reserialize (w.self._element.innerHTML ++ "undefined")) } := by
    rw [read_merge_newObject B w _ hw]
    rfl
  refine ⟨h1, h2, ?_, fun hs => ⟨?_, ?_⟩⟩
  · rw [read_setData_newObject B w _]
    have e : B.reserialize ((ParagraphData.mk .undefined).text.or (.string "")).toStr = "" :=
      B.reserialize_stable _ (by decide)
    exact congrArg (fun t => ParagraphData.mk (.string t)) e
  · rw [h1, B.reserialize_stable _ hs]
  · have hs2 : Dom.isStableText (w.self._element.innerHTML ++ "undefined") = true := by
      rw [Dom.isStableText_append, hs]
      decide
    rw [h2, B.reserialize_stable _ hs2]

/-- C8 amended, at the block built from `{text: 'a'}` and the text engine. -/
theorem merge_absent_text_witness :
    exampleWorld.wf ∧
      read (merge Dom.textEngine (exampleWorld.newObject { text := .string "" }).2
        (exampleWorld.newObject { text := .string "" }).1) = { text := .string "a" } :=
  ⟨by decide, ((merge_absent_text Dom.textEngine exampleWorld (by decide)).2.2.2 (by decide)).1⟩

/-- C9 as stated fails: `validate({})` raises a `TypeError`; it does not
return false. -/
theorem validate_absent_text_counterexample :
    validate {} = .error .TypeError ∧ validate {} ≠ .ok false :=
  ⟨rfl, fun h => Except.noConfusion h⟩

/-- C9, amended: `validate` never raises on a `savedData` whose `text` is a
string: it returns a boolean, false for the empty text; with `text` absent the
call raises a `TypeError`. -/
theorem validate_total_on_strings (savedData : ParagraphData) :
    (∀ s, savedData.text = .string s → ∃ b, validate savedData = .ok b) ∧
      validate { text := .string "" } = .ok false ∧
      (savedData.text = .undefined → validate savedData = .error .TypeError) := by
  refine ⟨?_, rfl, ?_⟩
  · intro s hs
    refine ⟨decide (¬ Js.allWhiteSpace s), ?_⟩
    have h := validate_string s
    cases savedData with
    | mk text =>
      simp only at hs
      subst hs
      exact h
  · intro hu
    cases savedData with
    | mk text =>
      simp only at hu
      subst hu
      rfl

/-- C10 as stated fails: on the block whose text is one space, `merge` of
the literal whose text is U+00A0 makes the data read pass `validate` in every
engine (the surface returns a space followed by `&nbsp;`), though neither part
passes it. -/
theorem merge_validity_counterexample :
    read exampleSpaceWorld = { text := .string " " } ∧
      (∀ B : Dom.Engine,
        validate (read (merge B (exampleSpaceWorld.newObject { text := .string "\u00a0" }).2
          (exampleSpaceWorld.newObject { text := .string "\u00a0" }).1)) = .ok true) ∧
      validate { text := .string " " } = .ok false ∧
      validate { text := .string "\u00a0" } = .ok false := by
  refine ⟨by decide, ?_, rfl, rfl⟩
  intro B
  rw [read_merge_newObject B exampleSpaceWorld _ (by decide)]
  have e : B.reserialize (exampleSpaceWorld.self._element.innerHTML
      ++ (ParagraphData.mk (.string "\u00a0")).text.toStr) = " &nbsp;" :=
    (B.characterData _ (by decide)).trans (by decide)
  rw [e]
  rfl

/-- C10, amended: the data read after `merge({text: b})` on a block whose
text is `a` passes `validate` as the string the engine makes of `a ++ b` does;
when `a ++ b` is stable text (none of `<`, `>`, `&`, U+00A0, U+000D, U+0000) it
passes exactly when `{text: a}` or `{text: b}` does, and fails exactly when
both fail. -/
theorem merge_validity (B : Dom.Engine) (w : World) (b : String) (hw : w.wf) :
    validate (read (merge B (w.newObject { text := .string b }).2
          (w.newObject { text := .string b }).1))
        = validate { text := .string (B.reserialize (w.self._element.innerHTML ++ b)) } ∧
      (Dom.isStableText (w.self._element.innerHTML ++ b) = true →
        (validate (read (merge B (w.newObject { text := .string b }).2
              (w.newObject { text := .string b }).1)) = .ok true ↔
            validate { text := .string w.self._element.innerHTML } = .ok true ∨
              validate { text := .string b } = .ok true) ∧
        (validate (read (merge B (w.newObject { text := .string b }).2
              (w.newObject { text := .string b }).1)) = .ok false ↔
            validate { text := .string w.self._element.innerHTML } = .ok false ∧
              validate { text := .string b } = .ok false)) := by
  have h : read (merge B (w.newObject { text := .string b }).2
      (w.newObject { text := .string b }).1)
        = { text := .string (B.reserialize (w.self._element.innerHTML ++ b)) } :=
    read_merge_newObject B w { text := .string b } hw
  refine ⟨by rw [h], fun hs => ?_⟩
  rw [h, B.reserialize_stable _ hs]
  simp only [validate_string, Except.ok.injEq, decide_eq_true_eq,
    decide_eq_false_iff_not, not_not, Js.allWhiteSpace_append]
  exact ⟨not_and_or, trivial⟩

/-- C10 amended, at the block built from `{text: 'a'}`, `b = ' '` and the
text engine. -/
theorem merge_validity_witness :
    exampleWorld.wf ∧
      validate (read (merge Dom.textEngine (exampleWorld.newObject { text := .string " " }).2
        (exampleWorld.newObject { text := .string " " }).1)) = .ok true :=
  ⟨by decide,
    ((merge_validity Dom.textEngine exampleWorld " " (by decide)).2 (by decide)).1.mpr
      (Or.inl rfl)⟩

end Paragraph
